import Mathlib

set_option maxHeartbeats 1000000

/-!
Verification development for the registry access-policy engine (whitelist
package) and the token-validation options of this repository.  The whitelist
engine's Go implementation is not part of this tree (only its test file is),
so the engine is modelled from the specification, with the repository's tests
fixing the behaviour wherever they exercise it.  Admission functions return
`none` for "admitted" and `some message` for a denial, mirroring Go's
`error`-valued results.
-/

/-- Transport classes for admission queries: TLS required, TLS forbidden, or
either. -/
inductive WhitelistTransport where
  | secure
  | insecure
  | any
  deriving DecidableEq

/-- Modelled from the spec: the Policy Entry record of the whitelist engine
(whose Go source is not in this tree).  `host` is the domain pattern, `port`
is a decimal port string or the wildcard-port sentinel `*`, and `insecure`
records whether the entry was registered for a transport that forbids TLS. -/
structure AllowedHostPortGlob where
  host : String
  port : String
  insecure : Bool
  deriving DecidableEq

/-- Modelled from the spec: the whitelist engine state — the ordered entry
list plus the set of pinned canonical repositories. -/
structure RegistryWhitelister where
  whitelist : List AllowedHostPortGlob
  pullSpecs : List String
  deriving DecidableEq

def emptyWhitelister : RegistryWhitelister := ⟨[], []⟩

instance : Inhabited RegistryWhitelister := ⟨emptyWhitelister⟩

/-- Split a character list at every occurrence of a separator, keeping empty
segments; mirrors Go's `strings.Split`. -/
def splitOnSep (sep : Char) : List Char → List (List Char)
  | [] => [[]]
  | c :: rest =>
    if c = sep then [] :: splitOnSep sep rest
    else
      match splitOnSep sep rest with
      | [] => [[c]]
      | p :: ps => (c :: p) :: ps

/-- Modelled from the spec: default ports assigned by `WhitelistRegistry` when
the argument has no explicit port — 443 for secure, 80 for insecure, and both
entries for `any`.  For `any` the insecure entry is produced first; since
insertion prepends (see `insertEntry`), the secure entry ends up stored first,
exactly as `TestWhitelistRegistry` requires. -/
def defaultEntries (h : String) : WhitelistTransport → List AllowedHostPortGlob
  | .secure => [⟨h, "443", false⟩]
  | .insecure => [⟨h, "80", true⟩]
  | .any => [⟨h, "80", true⟩, ⟨h, "443", false⟩]

/-- Modelled from the spec: entries produced when an explicit port (possibly
the wildcard `*`) is present in the pattern. -/
def explicitPortEntries (h p : String) : WhitelistTransport → List AllowedHostPortGlob
  | .secure => [⟨h, p, false⟩]
  | .insecure => [⟨h, p, true⟩]
  | .any => [⟨h, p, true⟩, ⟨h, p, false⟩]

/-- Modelled from the spec: split a registry pattern on the port colon; more
than one colon is the `too many colons` configuration error. -/
def parseWhitelistEntries (s : String) (t : WhitelistTransport) :
    Except String (List AllowedHostPortGlob) :=
  match splitOnSep ':' s.data with
  | [h] => .ok (defaultEntries ⟨h⟩ t)
  | [h, p] => .ok (explicitPortEntries ⟨h⟩ ⟨p⟩ t)
  | _ => .error ("failed to parse allowed registry \"" ++ s ++ "\": too many colons")

/-- Insert an entry at the front of the list unless an identical
(domainPattern, port, insecure) triple is already present. -/
def insertEntry (l : List AllowedHostPortGlob) (e : AllowedHostPortGlob) :
    List AllowedHostPortGlob :=
  if e ∈ l then l else e :: l

/-- Modelled from the spec: the `WhitelistRegistry` mutation. -/
def RegistryWhitelister.WhitelistRegistry (rw : RegistryWhitelister)
    (hostPortGlob : String) (transport : WhitelistTransport) :
    Except String RegistryWhitelister :=
  (parseWhitelistEntries hostPortGlob transport).map fun es =>
    { rw with whitelist := es.foldl insertEntry rw.whitelist }

def transportFor (insecure : Bool) : WhitelistTransport :=
  if insecure then .insecure else .secure

/-- Modelled from the spec: `NewRegistryWhitelister` builds the engine from
the ordered (domainPattern, insecure) configuration.  The configuration is
walked in reverse so that the prepending insertion leaves the entries stored
in configuration order, which is the order the repository's tests observe in
denial messages. -/
def NewRegistryWhitelister (wl : List (String × Bool)) :
    Except String RegistryWhitelister :=
  wl.reverse.foldlM
    (fun rw p => rw.WhitelistRegistry p.1 (transportFor p.2)) emptyWhitelister

/-- Modelled from the spec: the historical hostnames of the official public
registry collapse to the single canonical registry for matching purposes. -/
def canonicalHostname (h : String) : String :=
  if h = "index.docker.io" ∨ h = "registry-1.docker.io" then "docker.io" else h

/-- Modelled from the spec: domain-pattern matching.  A pattern starting with
`*` matches every host whose character sequence ends with the remainder of
the pattern (so `*.suffix` matches strict subdomains only, `*suffix` also
matches `suffix` itself, and `*` matches everything); any other pattern
matches exactly the identical host, with official-registry aliases treated
as the single canonical registry on both sides (the host argument is already
canonicalised by `admitHostPort`). -/
def matchDomain (pattern host : String) : Bool :=
  match pattern.data with
  | [] => canonicalHostname pattern == host
  | c :: rest =>
    if c = '*' then List.isSuffixOf rest host.data
    else canonicalHostname pattern == host

/-- Modelled from the spec: a query without an explicit port never checks the
entry's port; an explicit query port must equal the entry's port unless the
entry carries the wildcard-port sentinel. -/
def matchPort (entryPort : String) : Option String → Bool
  | none => true
  | some p => entryPort == "*" || entryPort == p

def entryMatches (e : AllowedHostPortGlob) (host : String) (port : Option String) : Bool :=
  matchDomain e.host host && matchPort e.port port

/-- Modelled from the spec: the subset of entries applicable to a transport:
`secure` keeps the TLS entries, `insecure` the non-TLS entries, `any` all. -/
def applicableEntries (l : List AllowedHostPortGlob) :
    WhitelistTransport → List AllowedHostPortGlob
  | .any => l
  | .secure => l.filter (fun e => !e.insecure)
  | .insecure => l.filter (fun e => e.insecure)

/-- At most this many entries are rendered inline in a denial message. -/
def showMax : Nat := 4

def renderEntry (e : AllowedHostPortGlob) : String :=
  "\"" ++ e.host ++ ":" ++ e.port ++ "\""

/-- Modelled from the spec: render the applicable entries in stored order,
truncating after `showMax` of them with `, and <k> more ...`. -/
def renderWhitelist (l : List AllowedHostPortGlob) : String :=
  let shown := String.intercalate ", " ((l.take showMax).map renderEntry)
  if l.length ≤ showMax then shown
  else shown ++ ", and " ++ toString (l.length - showMax) ++ " more ..."

/-- Modelled from the spec: the denial message; an empty applicable set gets
the distinct empty-whitelist message. -/
def denialMessage (registry : String) (l : List AllowedHostPortGlob) : String :=
  if l.isEmpty then "registry \"" ++ registry ++ "\" not allowed by empty whitelist"
  else "registry \"" ++ registry ++ "\" not allowed by whitelist: " ++ renderWhitelist l

/-- Port used for matching a query that carries no explicit port: the
repository's tests pin that under the secure transport such a query is
checked against port 443 (entry `registry.com:80` denies the bare host
`registry.com`) and under `any` the port check is skipped; the insecure
transport symmetrically defaults to 80. -/
def queryPort : WhitelistTransport → Option String → Option String
  | _, some p => some p
  | .secure, none => some "443"
  | .insecure, none => some "80"
  | .any, none => none

/-- Modelled from the spec: shared admission core — admit when any applicable
entry matches the (canonicalised) host and the port (defaulted per
`queryPort`), otherwise deny naming the query as given and enumerating the
applicable entries. -/
def admitHostPort (rw : RegistryWhitelister) (given host : String)
    (port : Option String) (t : WhitelistTransport) : Option String :=
  let es := applicableEntries rw.whitelist t
  if es.any (fun e => entryMatches e (canonicalHostname host) (queryPort t port)) then none
  else some (denialMessage given es)

/-- Modelled from the spec: `AdmitHostname`. -/
def RegistryWhitelister.AdmitHostname (rw : RegistryWhitelister)
    (hostname : String) (t : WhitelistTransport) : Option String :=
  match splitOnSep ':' hostname.data with
  | [h] => admitHostPort rw hostname ⟨h⟩ none t
  | [h, p] => admitHostPort rw hostname ⟨h⟩ (some ⟨p⟩) t
  | _ => some ("failed to parse registry hostname \"" ++ hostname ++ "\": too many colons")

/-- The structured image reference: registry host (possibly with port),
namespace, name, tag and digest id.  Field `namesp` stands for the Go field
`Namespace`, which is a reserved word in Lean. -/
structure DockerImageReference where
  registry : String := ""
  namesp : String := ""
  name : String := ""
  tag : String := ""
  id : String := ""
  deriving DecidableEq

/-- Modelled from the spec: an empty registry defaults to the official
registry host and an empty namespace to the official-images namespace. -/
def DockerImageReference.DockerClientDefaults (ref : DockerImageReference) :
    DockerImageReference :=
  { ref with
    registry := if ref.registry = "" then "docker.io" else ref.registry
    namesp := if ref.namesp = "" then "library" else ref.namesp }

/-- Modelled from the spec: `canonicalRepository` — registry/namespace/name
with tag and digest stripped, defaults inserted, and official-registry
aliases collapsed. -/
def canonicalRepository (ref : DockerImageReference) : String :=
  let r := ref.DockerClientDefaults
  canonicalHostname r.registry ++ "/" ++ r.namesp ++ "/" ++ r.name

/-- A leading path component is a registry when it contains a dot or a colon
or is the literal `localhost`. -/
def isRegistryComponent (s : String) : Bool :=
  s == "localhost" || s.data.contains '.' || s.data.contains ':'

/-- Modelled from the spec: the pull-spec parser (the reference parser is an
external library not in this tree).  Splits registry / namespace / name and
strips the digest (after the first `@`) and the tag (after the following
first `:`). -/
def parseDockerImageReference (spec : String) : Except String DockerImageReference :=
  let parts := (splitOnSep '/' spec.data).map String.mk
  let (registry, path) :=
    match parts with
    | p :: rest => if rest ≠ [] && isRegistryComponent p then (p, rest) else ("", parts)
    | [] => ("", [])
  let rest := String.intercalate "/" path
  let (preDigest, digest) :=
    match splitOnSep '@' rest.data with
    | [r] => (String.mk r, "")
    | r :: ds => (String.mk r, String.intercalate "@" (ds.map String.mk))
    | [] => ("", "")
  let (repoPath, tag) :=
    match splitOnSep ':' preDigest.data with
    | [r] => (String.mk r, "")
    | r :: ts => (String.mk r, String.intercalate ":" (ts.map String.mk))
    | [] => ("", "")
  let (namesp, nm) :=
    match splitOnSep '/' repoPath.data with
    | [n] => ("", String.mk n)
    | n :: ns => (String.mk n, String.intercalate "/" (ns.map String.mk))
    | [] => ("", "")
  if nm = "" then .error ("invalid image reference \"" ++ spec ++ "\"")
  else .ok ⟨registry, namesp, nm, tag, digest⟩

/-- Modelled from the spec: with an empty registry host the official registry
is targeted; the repository's tests pin the hostname `docker.io:443` under
the secure transport and the bare `docker.io` under `any` (insecure is
modelled symmetrically to secure). -/
def defaultRegistryHostname : WhitelistTransport → String
  | .insecure => "docker.io:80"
  | .secure => "docker.io:443"
  | .any => "docker.io"

/-- Modelled from the spec: `AdmitDockerImageReference` — a pinned canonical
repository is admitted unconditionally, otherwise the registry host is
admitted like a hostname query. -/
def RegistryWhitelister.AdmitDockerImageReference (rw : RegistryWhitelister)
    (ref : DockerImageReference) (t : WhitelistTransport) : Option String :=
  if rw.pullSpecs.contains (canonicalRepository ref) then none
  else
    let hostname := if ref.registry = "" then defaultRegistryHostname t else ref.registry
    rw.AdmitHostname hostname t

/-- Modelled from the spec: `AdmitPullSpec` parses and delegates; a parse
failure is surfaced, never treated as admission. -/
def RegistryWhitelister.AdmitPullSpec (rw : RegistryWhitelister)
    (pullSpec : String) (t : WhitelistTransport) : Option String :=
  match parseDockerImageReference pullSpec with
  | .error e => some e
  | .ok ref => rw.AdmitDockerImageReference ref t

def insertPullSpec (l : List String) (s : String) : List String :=
  if s ∈ l then l else s :: l

/-- Modelled from the spec: `WhitelistRepository` pins the canonical
repository of the parsed pull spec. -/
def RegistryWhitelister.WhitelistRepository (rw : RegistryWhitelister)
    (pullSpec : String) : Except String RegistryWhitelister :=
  (parseDockerImageReference pullSpec).map fun ref =>
    { rw with pullSpecs := insertPullSpec rw.pullSpecs (canonicalRepository ref) }

/-- Modelled from the spec: `Copy` returns a structural clone of the value. -/
def RegistryWhitelister.Copy (rw : RegistryWhitelister) : RegistryWhitelister := rw

/-!  A handle-addressed store of engines.  The spec's `Copy()` isolation is a
statement about aliasing, so engines are held in a store addressed by
handles: `storeCopy` binds a fresh handle to a structural clone, and
mutations act on one handle only.  -/

def storeGet (s : List RegistryWhitelister) (h : Nat) : RegistryWhitelister :=
  (s[h]?).getD emptyWhitelister

/-- Modelled from the spec: taking a copy allocates a fresh handle bound to a
clone of the engine; the pair is the new store and the copy's handle. -/
def storeCopy (s : List RegistryWhitelister) (h : Nat) :
    List RegistryWhitelister × Nat :=
  (s ++ [(storeGet s h).Copy], s.length)

/-- A dynamic extension of the allow-list: registering a registry or pinning
a repository. -/
inductive WhitelistMutation where
  | registry (d : String) (t : WhitelistTransport)
  | repository (p : String)

/-- Apply one mutation to an engine value; a parse error leaves the engine
unchanged, as the Go mutation methods return early on error. -/
def applyMutation (rw : RegistryWhitelister) : WhitelistMutation → RegistryWhitelister
  | .registry d t =>
    match rw.WhitelistRegistry d t with
    | .ok r => r
    | .error _ => rw
  | .repository p =>
    match rw.WhitelistRepository p with
    | .ok r => r
    | .error _ => rw

/-- Apply a sequence of mutations to the engine bound to one handle. -/
def storeMutate (s : List RegistryWhitelister) (h : Nat)
    (ms : List WhitelistMutation) : List RegistryWhitelister :=
  s.set h (ms.foldl applyMutation (storeGet s h))

/-!  The token-validation options (`server_run_options.go`).  A Go
`time.Duration` is a signed count of nanoseconds; `int32(d.Seconds())`
truncates the second count toward zero and then narrows it to int32.  Within
the int32 range the truncation is exactly `Int.tdiv` of the nanosecond count
by 10⁹ (float64 rounding of `Seconds()` can shift the count by one only for
magnitudes far above the 0/300 thresholds, never changing the validation
verdict); on overflow Go's float-to-int conversion is
implementation-defined, and on the amd64 targets this code runs on the
conversion yields -2³¹ for every out-of-range value, which the model
adopts.  -/

/-- Pointwise replacement of every entry's port, used to state that admission
of a port-free query under the `any` transport never reads the ports. -/
def setEntryPorts (f : String → String) (l : List AllowedHostPortGlob) :
    List AllowedHostPortGlob :=
  l.map fun e => { e with port := f e.port }

/-!  ## Basic lemmas  -/

theorem splitOnSep_eq_single {sep : Char} : ∀ {l : List Char}, sep ∉ l →
    splitOnSep sep l = [l]
  | [], _ => rfl
  | c :: cs, h => by
    have hc : ¬ c = sep := fun hh => h (hh ▸ List.mem_cons_self c cs)
    have ih := splitOnSep_eq_single (fun hm => h (List.mem_cons_of_mem c hm))
    rw [splitOnSep, if_neg hc, ih]

theorem mem_insertEntry {l : List AllowedHostPortGlob} {e x : AllowedHostPortGlob} :
    x ∈ insertEntry l e ↔ x = e ∨ x ∈ l := by
  unfold insertEntry
  split
  · next hmem =>
    constructor
    · exact fun hx => Or.inr hx
    · rintro (rfl | hx)
      · exact hmem
      · exact hx
  · simp [List.mem_cons]

theorem insertEntry_of_mem {l : List AllowedHostPortGlob} {e : AllowedHostPortGlob}
    (h : e ∈ l) : insertEntry l e = l := by
  unfold insertEntry
  rw [if_pos h]

theorem self_mem_insertEntry {l : List AllowedHostPortGlob} {e : AllowedHostPortGlob} :
    e ∈ insertEntry l e := mem_insertEntry.mpr (Or.inl rfl)

theorem mem_foldl_insertEntry {es : List AllowedHostPortGlob} :
    ∀ {l x}, x ∈ es.foldl insertEntry l ↔ x ∈ es ∨ x ∈ l := by
  induction es with
  | nil => simp
  | cons e es ih =>
    intro l x
    rw [List.foldl_cons]
    rw [ih]
    rw [mem_insertEntry]
    simp only [List.mem_cons]
    tauto

theorem foldl_insertEntry_prefix (es : List AllowedHostPortGlob) :
    ∀ l, ∃ p, es.foldl insertEntry l = p ++ l := by
  induction es with
  | nil => exact fun l => ⟨[], rfl⟩
  | cons e es ih =>
    intro l
    obtain ⟨p, hp⟩ := ih (insertEntry l e)
    by_cases he : e ∈ l
    · refine ⟨p, ?_⟩
      rw [List.foldl_cons, hp, insertEntry_of_mem he]
    · refine ⟨p ++ [e], ?_⟩
      rw [List.foldl_cons, hp]
      unfold insertEntry
      rw [if_neg he, List.append_assoc]
      rfl

theorem foldl_insertEntry_of_subset {es : List AllowedHostPortGlob} :
    ∀ {l}, (∀ e ∈ es, e ∈ l) → es.foldl insertEntry l = l := by
  induction es with
  | nil => exact fun _ => rfl
  | cons e es ih =>
    intro l h
    rw [List.foldl_cons, insertEntry_of_mem (h e (List.mem_cons_self e es))]
    exact ih fun x hx => h x (List.mem_cons_of_mem e hx)

theorem any_congr_of_mem_iff {α : Type} {l1 l2 : List α}
    (h : ∀ x, x ∈ l1 ↔ x ∈ l2) (f : α → Bool) : l1.any f = l2.any f := by
  cases h1 : l1.any f <;> cases h2 : l2.any f
  · rfl
  · obtain ⟨x, hx, hfx⟩ := List.any_eq_true.mp h2
    have h3 := List.any_eq_true.mpr ⟨x, (h x).mpr hx, hfx⟩
    rw [h1] at h3
    cases h3
  · obtain ⟨x, hx, hfx⟩ := List.any_eq_true.mp h1
    have h3 := List.any_eq_true.mpr ⟨x, (h x).mp hx, hfx⟩
    rw [h2] at h3
    cases h3
  · rfl

theorem applicable_any_congr {l1 l2 : List AllowedHostPortGlob}
    (h : ∀ x, x ∈ l1 ↔ x ∈ l2) (t : WhitelistTransport) (f : AllowedHostPortGlob → Bool) :
    (applicableEntries l1 t).any f = (applicableEntries l2 t).any f := by
  cases t <;> simp only [applicableEntries] <;>
    apply any_congr_of_mem_iff <;> intro x <;> simp [List.mem_filter, h x]

theorem isNone_admitHostPort (rw : RegistryWhitelister) (given host : String)
    (port : Option String) (t : WhitelistTransport) :
    (admitHostPort rw given host port t).isNone
      = (applicableEntries rw.whitelist t).any
          (fun e => entryMatches e (canonicalHostname host) (queryPort t port)) := by
  cases hany : (applicableEntries rw.whitelist t).any
      (fun e => entryMatches e (canonicalHostname host) (queryPort t port)) <;>
    simp [admitHostPort, hany]

theorem stringMk_data (s : String) : String.mk s.data = s := rfl

theorem matchDomain_star_cons (cs : List Char) (h : String) :
    matchDomain (String.mk ('*' :: cs)) h = List.isSuffixOf cs h.data := by
  simp [matchDomain]

theorem canonicalHostname_of_star (cs : List Char) :
    canonicalHostname (String.mk ('*' :: cs)) = String.mk ('*' :: cs) := by
  have h1 : String.mk ('*' :: cs) ≠ "index.docker.io" := by
    intro hh
    have h2 : ('*' :: cs).head? = "index.docker.io".data.head? := by
      rw [← hh]
    rw [show "index.docker.io".data.head? = some 'i' from rfl] at h2
    exact absurd (Option.some.inj h2) (by decide)
  have h3 : String.mk ('*' :: cs) ≠ "registry-1.docker.io" := by
    intro hh
    have h4 : ('*' :: cs).head? = "registry-1.docker.io".data.head? := by
      rw [← hh]
    rw [show "registry-1.docker.io".data.head? = some 'r' from rfl] at h4
    exact absurd (Option.some.inj h4) (by decide)
  unfold canonicalHostname
  rw [if_neg]
  rintro (hh | hh)
  · exact h1 hh
  · exact h3 hh

theorem matchDomain_canonical_self (d : String) :
    matchDomain d (canonicalHostname d) = true := by
  cases d with
  | mk l =>
    cases l with
    | nil => simp [matchDomain]
    | cons c cs =>
      by_cases hc : c = '*'
      · subst hc
        rw [matchDomain_star_cons, canonicalHostname_of_star]
        exact List.isSuffixOf_iff_suffix.mpr (List.suffix_cons '*' cs)
      · simp [matchDomain, hc]

theorem isNone_AdmitHostname_congr {w1 w2 : List AllowedHostPortGlob}
    (h : ∀ x, x ∈ w1 ↔ x ∈ w2) (ps1 ps2 : List String) (q : String)
    (t : WhitelistTransport) :
    ((RegistryWhitelister.mk w1 ps1).AdmitHostname q t).isNone
      = ((RegistryWhitelister.mk w2 ps2).AdmitHostname q t).isNone := by
  unfold RegistryWhitelister.AdmitHostname
  cases hsp : splitOnSep ':' q.data with
  | nil => rfl
  | cons a as =>
    cases as with
    | nil =>
      rw [isNone_admitHostPort, isNone_admitHostPort]
      exact applicable_any_congr h t _
    | cons b bs =>
      cases bs with
      | nil =>
        rw [isNone_admitHostPort, isNone_admitHostPort]
        exact applicable_any_congr h t _
      | cons c cs => rfl

theorem isNone_AdmitDockerImageReference_congr {w1 w2 : List AllowedHostPortGlob}
    (h : ∀ x, x ∈ w1 ↔ x ∈ w2) (ps : List String) (ref : DockerImageReference)
    (t : WhitelistTransport) :
    ((RegistryWhitelister.mk w1 ps).AdmitDockerImageReference ref t).isNone
      = ((RegistryWhitelister.mk w2 ps).AdmitDockerImageReference ref t).isNone := by
  unfold RegistryWhitelister.AdmitDockerImageReference
  cases hc : ps.contains (canonicalRepository ref)
  · simp only [hc, Bool.false_eq_true, if_false]
    exact isNone_AdmitHostname_congr h ps ps _ t
  · simp [hc]

theorem isNone_AdmitPullSpec_congr {w1 w2 : List AllowedHostPortGlob}
    (h : ∀ x, x ∈ w1 ↔ x ∈ w2) (ps : List String) (pullSpec : String)
    (t : WhitelistTransport) :
    ((RegistryWhitelister.mk w1 ps).AdmitPullSpec pullSpec t).isNone
      = ((RegistryWhitelister.mk w2 ps).AdmitPullSpec pullSpec t).isNone := by
  unfold RegistryWhitelister.AdmitPullSpec
  cases hp : parseDockerImageReference pullSpec with
  | error e => rfl
  | ok ref => exact isNone_AdmitDockerImageReference_congr h ps ref t

theorem WhitelistRegistry_ok_of_no_colon (rw : RegistryWhitelister) (d : String)
    (t : WhitelistTransport) (h : ':' ∉ d.data) :
    rw.WhitelistRegistry d t
      = .ok { rw with whitelist := (defaultEntries d t).foldl insertEntry rw.whitelist } := by
  unfold RegistryWhitelister.WhitelistRegistry parseWhitelistEntries
  rw [splitOnSep_eq_single h]
  rfl

theorem WhitelistRegistry_structure {rw r : RegistryWhitelister} {d : String}
    {t : WhitelistTransport} (h : rw.WhitelistRegistry d t = .ok r) :
    ∃ es : List AllowedHostPortGlob,
      r.whitelist = es.foldl insertEntry rw.whitelist ∧ r.pullSpecs = rw.pullSpecs := by
  unfold RegistryWhitelister.WhitelistRegistry at h
  cases hp : parseWhitelistEntries d t with
  | error e => rw [hp] at h; cases h
  | ok es =>
    rw [hp] at h
    refine ⟨es, ?_, ?_⟩ <;> cases h <;> rfl

theorem admitHostPort_eq_none_of_any {rw : RegistryWhitelister} {given host : String}
    {port : Option String} {t : WhitelistTransport}
    (h : (applicableEntries rw.whitelist t).any
        (fun e => entryMatches e (canonicalHostname host) (queryPort t port)) = true) :
    admitHostPort rw given host port t = none := by
  simp [admitHostPort, h]

theorem admitHostPort_eq_some_of_not_any {rw : RegistryWhitelister} {given host : String}
    {port : Option String} {t : WhitelistTransport}
    (h : (applicableEntries rw.whitelist t).any
        (fun e => entryMatches e (canonicalHostname host) (queryPort t port)) = false) :
    admitHostPort rw given host port t
      = some (denialMessage given (applicableEntries rw.whitelist t)) := by
  simp [admitHostPort, h]

theorem AdmitHostname_none_of_entry {rw : RegistryWhitelister} {d : String}
    {t : WhitelistTransport} (hc : ':' ∉ d.data) {e : AllowedHostPortGlob}
    (he : e ∈ applicableEntries rw.whitelist t)
    (hm : entryMatches e (canonicalHostname d) (queryPort t none) = true) :
    rw.AdmitHostname d t = none := by
  unfold RegistryWhitelister.AdmitHostname
  rw [splitOnSep_eq_single hc]
  exact admitHostPort_eq_none_of_any (List.any_eq_true.mpr ⟨e, he, hm⟩)

theorem parseWhitelistEntries_of_no_colon {d : String} (h : ':' ∉ d.data)
    (t : WhitelistTransport) :
    parseWhitelistEntries d t = .ok (defaultEntries d t) := by
  unfold parseWhitelistEntries
  rw [splitOnSep_eq_single h]

theorem WhitelistRegistry_noop {r : RegistryWhitelister} {d : String}
    {t : WhitelistTransport} {es : List AllowedHostPortGlob}
    (hp : parseWhitelistEntries d t = .ok es) (hmem : ∀ e ∈ es, e ∈ r.whitelist) :
    r.WhitelistRegistry d t = .ok r := by
  unfold RegistryWhitelister.WhitelistRegistry
  rw [hp]
  simp [Except.map, foldl_insertEntry_of_subset hmem]

theorem WhitelistRegistry_idem {rw r : RegistryWhitelister} {d : String}
    {t : WhitelistTransport} (h : rw.WhitelistRegistry d t = .ok r) :
    r.WhitelistRegistry d t = .ok r := by
  unfold RegistryWhitelister.WhitelistRegistry at h
  cases hp : parseWhitelistEntries d t with
  | error e => rw [hp] at h; cases h
  | ok es =>
    rw [hp] at h
    simp only [Except.map] at h
    injection h with h2
    subst h2
    exact WhitelistRegistry_noop hp
      (fun e he => mem_foldl_insertEntry.mpr (Or.inl he))

theorem applicableEntries_setPorts (f : String → String)
    (l : List AllowedHostPortGlob) (t : WhitelistTransport) :
    applicableEntries (setEntryPorts f l) t = setEntryPorts f (applicableEntries l t) := by
  cases t <;> simp only [applicableEntries, setEntryPorts] <;>
    rw [List.filter_map] <;> rfl

theorem any_entryMatches_setPorts (f : String → String)
    (l : List AllowedHostPortGlob) (t : WhitelistTransport) (host : String) :
    (applicableEntries (setEntryPorts f l) t).any (fun e => entryMatches e host none)
      = (applicableEntries l t).any (fun e => entryMatches e host none) := by
  rw [applicableEntries_setPorts]
  unfold setEntryPorts
  rw [List.any_map]
  rfl

theorem data_star_dot_append (s : String) : ("*." ++ s).data = '*' :: '.' :: s.data := by
  rw [String.data_append]
  rfl

theorem data_star_append (s : String) : ("*" ++ s).data = '*' :: s.data := by
  rw [String.data_append]
  rfl

theorem data_dot_append (s : String) : ("." ++ s).data = '.' :: s.data := by
  rw [String.data_append]
  rfl

/-- C3: an entry `*.suffix` matches exactly the hosts ending in `.suffix` and
never `suffix` itself, while `*suffix` matches every host ending in `suffix`,
including `suffix`; concretely, the engine built from `*.foo.com` denies
`foo.com` and admits `sub.foo.com`, and the engine built from `*domain.ltd`
admits both `domain.ltd` and `mydomain.ltd`. -/
theorem C3_wildcard_semantics :
    (∀ (s h : String), matchDomain ("*." ++ s) h = List.isSuffixOf ("." ++ s).data h.data)
    ∧ (∀ s : String, matchDomain ("*." ++ s) s = false)
    ∧ (∀ (s h : String), matchDomain ("*" ++ s) h = List.isSuffixOf s.data h.data)
    ∧ (∀ s : String, matchDomain ("*" ++ s) s = true)
    ∧ NewRegistryWhitelister [("*.foo.com", false)]
        = .ok (RegistryWhitelister.mk [⟨"*.foo.com", "443", false⟩] [])
    ∧ (RegistryWhitelister.mk [⟨"*.foo.com", "443", false⟩] []).AdmitHostname
        "foo.com" .any ≠ none
    ∧ (RegistryWhitelister.mk [⟨"*.foo.com", "443", false⟩] []).AdmitHostname
        "sub.foo.com" .any = none
    ∧ NewRegistryWhitelister [("*domain.ltd", false)]
        = .ok (RegistryWhitelister.mk [⟨"*domain.ltd", "443", false⟩] [])
    ∧ (RegistryWhitelister.mk [⟨"*domain.ltd", "443", false⟩] []).AdmitHostname
        "domain.ltd" .any = none
    ∧ (RegistryWhitelister.mk [⟨"*domain.ltd", "443", false⟩] []).AdmitHostname
        "mydomain.ltd" .any = none := by
  have hdot : ∀ (s h : String),
      matchDomain ("*." ++ s) h = List.isSuffixOf ("." ++ s).data h.data := by
    intro s h
    have e1 : ("*." ++ s) = String.mk ('*' :: '.' :: s.data) :=
      String.ext (data_star_dot_append s)
    rw [e1, matchDomain_star_cons, data_dot_append]
  have hbare : ∀ (s h : String),
      matchDomain ("*" ++ s) h = List.isSuffixOf s.data h.data := by
    intro s h
    have e1 : ("*" ++ s) = String.mk ('*' :: s.data) :=
      String.ext (data_star_append s)
    rw [e1, matchDomain_star_cons]
  refine ⟨hdot, ?_, hbare, ?_, by rfl, by decide, by rfl, by rfl, by rfl, by rfl⟩
  · intro s
    rw [hdot, data_dot_append]
    cases hsuf : List.isSuffixOf ('.' :: s.data) s.data
    · rfl
    · exfalso
      have h1 := List.isSuffixOf_iff_suffix.mp hsuf
      have h2 := h1.length_le
      simp at h2
  · intro s
    rw [hbare]
    exact List.isSuffixOf_iff_suffix.mpr (List.suffix_refl s.data)

/-- C7: a denial message renders at most 4 applicable entries inline; with
4 + k applicable entries (k ≥ 1) it renders exactly the first 4 followed by
", and k more ..."; the repository's 6-entry engine yields the suffix
"and 2 more ..." verbatim. -/
theorem C7_denial_truncation :
    (∀ (registry : String) (l : List AllowedHostPortGlob) (k : Nat),
        l.length = showMax + k → 1 ≤ k →
        denialMessage registry l
          = "registry \"" ++ registry ++ "\" not allowed by whitelist: "
            ++ (String.intercalate ", " ((l.take showMax).map renderEntry)
                ++ ", and " ++ toString k ++ " more ..."))
    ∧ (∀ (registry : String) (l : List AllowedHostPortGlob),
        l ≠ [] → l.length ≤ showMax →
        denialMessage registry l
          = "registry \"" ++ registry ++ "\" not allowed by whitelist: "
            ++ String.intercalate ", " (l.map renderEntry))
    ∧ NewRegistryWhitelister
        [("localhost:5000", true), ("docker.io", true), ("example.com:*", true),
         ("registry.com:80", true), ("*.foo.com", true), ("*domain.ltd", true)]
        = .ok (RegistryWhitelister.mk
            [⟨"localhost", "5000", true⟩, ⟨"docker.io", "80", true⟩,
             ⟨"example.com", "*", true⟩, ⟨"registry.com", "80", true⟩,
             ⟨"*.foo.com", "80", true⟩, ⟨"*domain.ltd", "80", true⟩] [])
    ∧ (RegistryWhitelister.mk
            [⟨"localhost", "5000", true⟩, ⟨"docker.io", "80", true⟩,
             ⟨"example.com", "*", true⟩, ⟨"registry.com", "80", true⟩,
             ⟨"*.foo.com", "80", true⟩, ⟨"*domain.ltd", "80", true⟩] []).AdmitHostname
          "foo.com" .insecure
        = some ("registry \"foo.com\" not allowed by whitelist: \"localhost:5000\", "
            ++ "\"docker.io:80\", \"example.com:*\", \"registry.com:80\", and 2 more ...") := by
  refine ⟨?_, ?_, by rfl, by rfl⟩
  · intro registry l k hlen hk
    have hne : l ≠ [] := by
      intro hnil
      rw [hnil] at hlen
      simp [showMax] at hlen
      omega
    have hgt : ¬ l.length ≤ showMax := by
      rw [hlen]
      omega
    unfold denialMessage
    rw [if_neg (by simp [hne])]
    unfold renderWhitelist
    simp only [if_neg hgt]
    rw [hlen, Nat.add_sub_cancel_left]
  · intro registry l hne hle
    unfold denialMessage
    rw [if_neg (by simp [hne])]
    unfold renderWhitelist
    simp only [if_pos hle]
    rw [List.take_of_length_le hle]

/-- C7 witness: the truncation shape applied at a concrete 6-entry list and
the full-enumeration shape at a concrete 2-entry list. -/
theorem C7_witness :
    denialMessage "h"
        [⟨"a", "1", true⟩, ⟨"b", "2", true⟩, ⟨"c", "3", true⟩,
         ⟨"d", "4", true⟩, ⟨"e", "5", true⟩, ⟨"f", "6", true⟩]
      = "registry \"h\" not allowed by whitelist: "
        ++ (String.intercalate ", "
              (([⟨"a", "1", true⟩, ⟨"b", "2", true⟩, ⟨"c", "3", true⟩,
                 ⟨"d", "4", true⟩, ⟨"e", "5", true⟩,
                 (⟨"f", "6", true⟩ : AllowedHostPortGlob)].take showMax).map renderEntry)
            ++ ", and " ++ toString 2 ++ " more ...")
    ∧ denialMessage "h" [⟨"a", "1", true⟩, ⟨"b", "2", true⟩]
      = "registry \"h\" not allowed by whitelist: "
        ++ String.intercalate ", "
            ([⟨"a", "1", true⟩, (⟨"b", "2", true⟩ : AllowedHostPortGlob)].map renderEntry) :=
  ⟨C7_denial_truncation.1 "h" _ 2 (by decide) (by decide),
   C7_denial_truncation.2.1 "h" _ (by decide) (by decide)⟩

theorem splitOnSep_length (sep : Char) :
    ∀ l : List Char, (splitOnSep sep l).length = List.count sep l + 1
  | [] => rfl
  | c :: cs => by
    have ih := splitOnSep_length sep cs
    by_cases hc : c = sep
    · subst hc
      rw [splitOnSep, if_pos rfl]
      simp [List.count_cons, ih]
    · rw [splitOnSep, if_neg hc]
      have hcnt : List.count sep (c :: cs) = List.count sep cs := by
        simp [List.count_cons, hc]
      cases hsp : splitOnSep sep cs with
      | nil => rw [hsp] at ih; simp at ih
      | cons p ps =>
        rw [hsp] at ih
        show ((c :: p) :: ps).length = List.count sep (c :: cs) + 1
        rw [hcnt, ← ih]
        rfl

theorem parse_error_of_two_colons {s : String} (t : WhitelistTransport)
    (h : 2 ≤ List.count ':' s.data) :
    parseWhitelistEntries s t
      = .error ("failed to parse allowed registry \"" ++ s ++ "\": too many colons") := by
  unfold parseWhitelistEntries
  have hlen := splitOnSep_length ':' s.data
  cases hsp : splitOnSep ':' s.data with
  | nil => rfl
  | cons a as =>
    cases as with
    | nil => rw [hsp] at hlen; simp at hlen; omega
    | cons b bs =>
      cases bs with
      | nil => rw [hsp] at hlen; simp at hlen; omega
      | cons c cs => rfl

theorem parse_ok_of_colons_lt {s : String} (t : WhitelistTransport)
    (h : List.count ':' s.data < 2) :
    ∃ es, parseWhitelistEntries s t = .ok es := by
  unfold parseWhitelistEntries
  have hlen := splitOnSep_length ':' s.data
  cases hsp : splitOnSep ':' s.data with
  | nil => exact ⟨[], by rw [hsp] at hlen; simp at hlen⟩
  | cons a as =>
    cases as with
    | nil => exact ⟨_, rfl⟩
    | cons b bs =>
      cases bs with
      | nil => exact ⟨_, rfl⟩
      | cons c cs =>
        exfalso
        rw [hsp] at hlen
        simp at hlen
        omega

theorem WhitelistRegistry_ok_of_parse {rw : RegistryWhitelister} {d : String}
    {t : WhitelistTransport} {es : List AllowedHostPortGlob}
    (h : parseWhitelistEntries d t = .ok es) :
    rw.WhitelistRegistry d t
      = .ok { rw with whitelist := es.foldl insertEntry rw.whitelist } := by
  unfold RegistryWhitelister.WhitelistRegistry
  rw [h]
  rfl

theorem foldlM_wr_ok :
    ∀ (l : List (String × Bool)) (rw : RegistryWhitelister),
    (∀ p ∈ l, List.count ':' p.1.data < 2) →
    ∃ r, List.foldlM
        (fun rw p => rw.WhitelistRegistry p.1 (transportFor p.2)) rw l = .ok r
  | [], rw, _ => ⟨rw, rfl⟩
  | p :: l, rw, h => by
    obtain ⟨es, hes⟩ :=
      parse_ok_of_colons_lt (transportFor p.2) (h p (List.mem_cons_self p l))
    obtain ⟨r, hr⟩ := foldlM_wr_ok l
      { rw with whitelist := es.foldl insertEntry rw.whitelist }
      (fun q hq => h q (List.mem_cons_of_mem p hq))
    refine ⟨r, ?_⟩
    rw [List.foldlM_cons, WhitelistRegistry_ok_of_parse hes]
    exact hr

theorem foldlM_wr_all_ok :
    ∀ (l : List (String × Bool)) (rw r : RegistryWhitelister),
    List.foldlM (fun rw p => rw.WhitelistRegistry p.1 (transportFor p.2)) rw l = .ok r →
    ∀ p ∈ l, List.count ':' p.1.data < 2
  | [], _, _, _, p, hp => absurd hp (List.not_mem_nil p)
  | q :: l, rw, r, h, p, hp => by
    rw [List.foldlM_cons] at h
    by_cases hc : List.count ':' q.1.data < 2
    · obtain ⟨es, hes⟩ := parse_ok_of_colons_lt (transportFor q.2) hc
      rw [WhitelistRegistry_ok_of_parse hes] at h
      rcases List.mem_cons.mp hp with rfl | hpl
      · exact hc
      · exact foldlM_wr_all_ok l _ r h p hpl
    · exfalso
      have hstep : rw.WhitelistRegistry q.1 (transportFor q.2)
          = .error ("failed to parse allowed registry \"" ++ q.1 ++ "\": too many colons") := by
        unfold RegistryWhitelister.WhitelistRegistry
        rw [parse_error_of_two_colons _ (by omega)]
        rfl
      rw [hstep] at h
      exact Except.noConfusion h

theorem foldlM_wr_error :
    ∀ (as : List (String × Bool)) (rw : RegistryWhitelister) (d : String) (i : Bool)
      (bs : List (String × Bool)),
    (∀ p ∈ as, List.count ':' p.1.data < 2) → 2 ≤ List.count ':' d.data →
    List.foldlM (fun rw p => rw.WhitelistRegistry p.1 (transportFor p.2)) rw
        (as ++ (d, i) :: bs)
      = .error ("failed to parse allowed registry \"" ++ d ++ "\": too many colons")
  | [], rw, d, i, bs, _, hd => by
    rw [List.nil_append, List.foldlM_cons]
    have hstep : rw.WhitelistRegistry d (transportFor i)
        = .error ("failed to parse allowed registry \"" ++ d ++ "\": too many colons") := by
      unfold RegistryWhitelister.WhitelistRegistry
      rw [parse_error_of_two_colons _ hd]
      rfl
    rw [hstep]
    rfl
  | q :: as, rw, d, i, bs, h, hd => by
    rw [List.cons_append, List.foldlM_cons]
    obtain ⟨es, hes⟩ :=
      parse_ok_of_colons_lt (transportFor q.2) (h q (List.mem_cons_self q as))
    rw [WhitelistRegistry_ok_of_parse hes]
    exact foldlM_wr_error as _ d i bs (fun p hp => h p (List.mem_cons_of_mem q hp)) hd

/-- C9: engine construction fails exactly when some configured pattern has
more than one colon; the error names the offending pattern with reason
"too many colons" (concretely, pattern 0:1:2:3 produces the exact message the
repository's test expects), and patterns made of arbitrary Unicode domain
labels are accepted. -/
theorem C9_construction :
    (∀ wl : List (String × Bool),
        (NewRegistryWhitelister wl).toBool = true
          ↔ ∀ p ∈ wl, List.count ':' p.1.data < 2)
    ∧ (∀ (xs ys : List (String × Bool)) (d : String) (i : Bool),
        (∀ p ∈ ys, List.count ':' p.1.data < 2) →
        2 ≤ List.count ':' d.data →
        NewRegistryWhitelister (xs ++ (d, i) :: ys)
          = .error ("failed to parse allowed registry \"" ++ d ++ "\": too many colons"))
    ∧ NewRegistryWhitelister [("0:1:2:3", true)]
        = .error "failed to parse allowed registry \"0:1:2:3\": too many colons"
    ∧ (NewRegistryWhitelister [("先生，先生！", true)]).toBool = true := by
  refine ⟨?_, ?_, by rfl, by rfl⟩
  · intro wl
    constructor
    · intro h p hp
      cases hok : NewRegistryWhitelister wl with
      | error e => rw [hok] at h; exact absurd h (by simp [Except.toBool])
      | ok r =>
        exact foldlM_wr_all_ok wl.reverse emptyWhitelister r hok p
          (List.mem_reverse.mpr hp)
    · intro h
      obtain ⟨r, hr⟩ := foldlM_wr_ok wl.reverse emptyWhitelister
        (fun p hp => h p (List.mem_reverse.mp hp))
      unfold NewRegistryWhitelister
      rw [hr]
      rfl
  · intro xs ys d i hys hd
    unfold NewRegistryWhitelister
    have hshape : (xs ++ (d, i) :: ys).reverse = ys.reverse ++ (d, i) :: xs.reverse := by
      rw [List.reverse_append, List.reverse_cons, List.append_assoc]
      rfl
    rw [hshape]
    exact foldlM_wr_error ys.reverse emptyWhitelister d i xs.reverse
      (fun p hp => hys p (List.mem_reverse.mp hp)) hd

/-- C9 witness: the characterisation applied at the concrete one-pattern
configurations of the repository's test, and the exact-error clause applied
around the malformed pattern 0:1:2:3. -/
theorem C9_witness :
    ((NewRegistryWhitelister [("docker.io", false)]).toBool = true)
    ∧ NewRegistryWhitelister [("docker.io", false), ("0:1:2:3", true)]
        = .error "failed to parse allowed registry \"0:1:2:3\": too many colons" :=
  ⟨(C9_construction.1 [("docker.io", false)]).mpr (by decide),
   C9_construction.2.1 [("docker.io", false)] [] "0:1:2:3" true (by decide) (by decide)⟩

/-- C5: mutating a copy never changes the original — for every store of
engines, valid handle, and sequence of WhitelistRegistry/WhitelistRepository
mutations applied to the freshly allocated copy, the engine at the original
handle (and hence every AdmitHostname / AdmitDockerImageReference /
AdmitPullSpec verdict against it) is unchanged. -/
theorem C5_copy_isolation :
    ∀ (s : List RegistryWhitelister) (hdl : Nat), hdl < s.length →
    ∀ (ms : List WhitelistMutation) (q : String) (t : WhitelistTransport)
      (ref : DockerImageReference) (ps : String),
      storeGet (storeMutate (storeCopy s hdl).1 (storeCopy s hdl).2 ms) hdl
          = storeGet s hdl
      ∧ (storeGet (storeMutate (storeCopy s hdl).1 (storeCopy s hdl).2 ms) hdl).AdmitHostname q t
          = (storeGet s hdl).AdmitHostname q t
      ∧ (storeGet (storeMutate (storeCopy s hdl).1 (storeCopy s hdl).2 ms) hdl).AdmitDockerImageReference ref t
          = (storeGet s hdl).AdmitDockerImageReference ref t
      ∧ (storeGet (storeMutate (storeCopy s hdl).1 (storeCopy s hdl).2 ms) hdl).AdmitPullSpec ps t
          = (storeGet s hdl).AdmitPullSpec ps t := by
  intro s hdl h ms q t ref ps
  have h1 : (storeCopy s hdl).1 = s ++ [(storeGet s hdl).Copy] := rfl
  have h2 : (storeCopy s hdl).2 = s.length := rfl
  have key : storeGet (storeMutate (storeCopy s hdl).1 (storeCopy s hdl).2 ms) hdl
      = storeGet s hdl := by
    rw [h1, h2]
    unfold storeMutate storeGet
    rw [List.getElem?_set_ne (by omega)]
    rw [List.getElem?_append_left h]
  exact ⟨key, by rw [key], by rw [key], by rw [key]⟩

/-- C5 witness: the isolation theorem applied to the one-engine store holding
the empty whitelister, copying it, registering foo.com on the copy and
pinning a repository there; admission of foo.com on the original handle stays
denied. -/
theorem C5_witness :
    storeGet (storeMutate (storeCopy [emptyWhitelister] 0).1 (storeCopy [emptyWhitelister] 0).2
        [.registry "foo.com" .any, .repository "example.com/image:tag"]) 0
      = storeGet [emptyWhitelister] 0
    ∧ (storeGet (storeMutate (storeCopy [emptyWhitelister] 0).1 (storeCopy [emptyWhitelister] 0).2
          [.registry "foo.com" .any, .repository "example.com/image:tag"]) 0).AdmitHostname
        "foo.com" .any
      = (storeGet [emptyWhitelister] 0).AdmitHostname "foo.com" .any := by
  have h := C5_copy_isolation [emptyWhitelister] 0 (by decide)
    [.registry "foo.com" .any, .repository "example.com/image:tag"]
    "foo.com" .any ⟨"", "", "", "", ""⟩ ""
  exact ⟨h.1, h.2.1⟩

theorem mem_insertPullSpec {l : List String} {s x : String} :
    x ∈ insertPullSpec l s ↔ x = s ∨ x ∈ l := by
  unfold insertPullSpec
  split
  · next hmem =>
    constructor
    · exact fun hx => Or.inr hx
    · rintro (rfl | hx)
      · exact hmem
      · exact hx
  · simp [List.mem_cons]

theorem contains_eq_of_mem_iff {l1 l2 : List String}
    (h : ∀ x, x ∈ l1 ↔ x ∈ l2) (x : String) : l1.contains x = l2.contains x := by
  show l1.elem x = l2.elem x
  rw [List.elem_eq_mem, List.elem_eq_mem]
  exact decide_eq_decide.mpr (h x)

/-- C6: repository pinning is tag/digest-insensitive and transport
independent — the canonical-repository key ignores tag and digest; after
WhitelistRepository of a pull spec, every reference (and every pull spec)
with the same canonical repository is admitted for every transport, while
references to a different repository are decided exactly as before the
pinning; concretely, pinning example.com/image:tagA admits the digest
references of the repository's test and leaves example.com/bar denied by the
static entries. -/
theorem C6_repository_pinning :
    (∀ (ref : DockerImageReference) (tg idg : String),
        canonicalRepository { ref with tag := tg, id := idg } = canonicalRepository ref)
    ∧ (∀ (rw r : RegistryWhitelister) (p : String) (ref : DockerImageReference),
        parseDockerImageReference p = .ok ref →
        rw.WhitelistRepository p = .ok r →
        (∀ (ref2 : DockerImageReference) (t : WhitelistTransport),
            canonicalRepository ref2 = canonicalRepository ref →
            r.AdmitDockerImageReference ref2 t = none)
        ∧ (∀ (q : String) (ref2 : DockerImageReference) (t : WhitelistTransport),
            parseDockerImageReference q = .ok ref2 →
            canonicalRepository ref2 = canonicalRepository ref →
            r.AdmitPullSpec q t = none)
        ∧ (∀ (ref2 : DockerImageReference) (t : WhitelistTransport),
            canonicalRepository ref2 ≠ canonicalRepository ref →
            r.AdmitDockerImageReference ref2 t = rw.AdmitDockerImageReference ref2 t))
    ∧ (RegistryWhitelister.mk [⟨"registry.example.org", "5000", false⟩] []).WhitelistRepository
          "example.com/image:tagA"
        = .ok (RegistryWhitelister.mk [⟨"registry.example.org", "5000", false⟩]
            ["example.com/library/image"])
    ∧ (RegistryWhitelister.mk [⟨"registry.example.org", "5000", false⟩]
          ["example.com/library/image"]).AdmitPullSpec
        "example.com/image@sha256:01ba4719c80b6fe911b091a7c05124b64eeece964e09c058ef8f9805daca546b"
        .secure = none
    ∧ (RegistryWhitelister.mk [⟨"registry.example.org", "5000", false⟩]
          ["example.com/library/image"]).AdmitPullSpec
        "example.com/image@sha256:e3b0c44298fc1c149afbf4c8996fb92427ae41e4649b934ca495991b7852b855"
        .insecure = none
    ∧ (RegistryWhitelister.mk [⟨"registry.example.org", "5000", false⟩]
          ["example.com/library/image"]).AdmitPullSpec "example.com/image:other" .any = none
    ∧ (RegistryWhitelister.mk [⟨"registry.example.org", "5000", false⟩]
          ["example.com/library/image"]).AdmitPullSpec
        "example.com/bar@sha256:01ba4719c80b6fe911b091a7c05124b64eeece964e09c058ef8f9805daca546b"
        .secure
      = some "registry \"example.com\" not allowed by whitelist: \"registry.example.org:5000\"" := by
  refine ⟨fun ref tg idg => rfl, ?_, by rfl, by rfl, by rfl, by rfl, by rfl⟩
  intro rw r p ref hparse hwr
  unfold RegistryWhitelister.WhitelistRepository at hwr
  rw [hparse] at hwr
  simp only [Except.map] at hwr
  injection hwr with hr
  subst hr
  have hmemself : canonicalRepository ref
      ∈ insertPullSpec rw.pullSpecs (canonicalRepository ref) :=
    mem_insertPullSpec.mpr (Or.inl rfl)
  have hcontains : (insertPullSpec rw.pullSpecs (canonicalRepository ref)).contains
      (canonicalRepository ref) = true := by
    rw [show (insertPullSpec rw.pullSpecs (canonicalRepository ref)).contains
        (canonicalRepository ref)
      = (insertPullSpec rw.pullSpecs (canonicalRepository ref)).elem
        (canonicalRepository ref) from rfl]
    rw [List.elem_eq_mem]
    exact decide_eq_true hmemself
  have hDIR : ∀ (ref2 : DockerImageReference) (t : WhitelistTransport),
      canonicalRepository ref2 = canonicalRepository ref →
      (RegistryWhitelister.mk rw.whitelist
          (insertPullSpec rw.pullSpecs (canonicalRepository ref))).AdmitDockerImageReference
        ref2 t = none := by
    intro ref2 t hc2
    unfold RegistryWhitelister.AdmitDockerImageReference
    rw [hc2]
    rw [if_pos hcontains]
  refine ⟨hDIR, ?_, ?_⟩
  · intro q ref2 t hq hc2
    unfold RegistryWhitelister.AdmitPullSpec
    rw [hq]
    exact hDIR ref2 t hc2
  · intro ref2 t hne
    unfold RegistryWhitelister.AdmitDockerImageReference
    have hceq : (insertPullSpec rw.pullSpecs (canonicalRepository ref)).contains
        (canonicalRepository ref2) = rw.pullSpecs.contains (canonicalRepository ref2) := by
      cases hx : rw.pullSpecs.contains (canonicalRepository ref2) with
      | true =>
        have hm : canonicalRepository ref2 ∈ rw.pullSpecs := by
          have := hx
          rw [show rw.pullSpecs.contains (canonicalRepository ref2)
              = rw.pullSpecs.elem (canonicalRepository ref2) from rfl,
            List.elem_eq_mem] at this
          exact of_decide_eq_true this
        rw [show (insertPullSpec rw.pullSpecs (canonicalRepository ref)).contains
            (canonicalRepository ref2)
          = (insertPullSpec rw.pullSpecs (canonicalRepository ref)).elem
            (canonicalRepository ref2) from rfl, List.elem_eq_mem]
        exact decide_eq_true (mem_insertPullSpec.mpr (Or.inr hm))
      | false =>
        have hm : canonicalRepository ref2 ∉ rw.pullSpecs := by
          intro hmm
          have h3 : rw.pullSpecs.contains (canonicalRepository ref2) = true := by
            rw [show rw.pullSpecs.contains (canonicalRepository ref2)
                = rw.pullSpecs.elem (canonicalRepository ref2) from rfl, List.elem_eq_mem]
            exact decide_eq_true hmm
          rw [hx] at h3
          cases h3
        rw [show (insertPullSpec rw.pullSpecs (canonicalRepository ref)).contains
            (canonicalRepository ref2)
          = (insertPullSpec rw.pullSpecs (canonicalRepository ref)).elem
            (canonicalRepository ref2) from rfl, List.elem_eq_mem]
        apply decide_eq_false
        intro hmm
        rcases mem_insertPullSpec.mp hmm with hh | hh
        · exact hne hh
        · exact hm hh
    rw [hceq]
    rfl

/-- C6 witness: the pinning theorem applied to the concrete engine of the
repository's test — after pinning example.com/image:tagA, a digest reference
of the same repository is admitted both as a structured reference and as a
pull spec. -/
theorem C6_witness :
    (RegistryWhitelister.mk [⟨"registry.example.org", "5000", false⟩]
        ["example.com/library/image"]).AdmitDockerImageReference
      ⟨"example.com", "", "image", "",
        "sha256:01ba4719c80b6fe911b091a7c05124b64eeece964e09c058ef8f9805daca546b"⟩
      .secure = none
    ∧ (RegistryWhitelister.mk [⟨"registry.example.org", "5000", false⟩]
        ["example.com/library/image"]).AdmitPullSpec
      "example.com/image@sha256:01ba4719c80b6fe911b091a7c05124b64eeece964e09c058ef8f9805daca546b"
      .secure = none := by
  have h := C6_repository_pinning.2.1
    (RegistryWhitelister.mk [⟨"registry.example.org", "5000", false⟩] [])
    (RegistryWhitelister.mk [⟨"registry.example.org", "5000", false⟩]
      ["example.com/library/image"])
    "example.com/image:tagA" ⟨"example.com", "", "image", "tagA", ""⟩ (by rfl) (by rfl)
  exact ⟨h.1 _ .secure (by rfl),
    h.2.1 "example.com/image@sha256:01ba4719c80b6fe911b091a7c05124b64eeece964e09c058ef8f9805daca546b"
      _ .secure (by rfl) (by rfl)⟩

/-- C8: the canonical repository string is registry/namespace/name with tag
and digest stripped, empty registry defaulted to docker.io, empty namespace
defaulted to library, and the official-registry aliases index.docker.io and
registry-1.docker.io collapsed to docker.io; busybox:glibc canonicalises to
docker.io/library/busybox, and an entry for docker.io admits the host
index.docker.io. -/
theorem C8_canonicalRepository :
    (∀ (ref : DockerImageReference) (tg idg : String),
        canonicalRepository { ref with tag := tg, id := idg } = canonicalRepository ref)
    ∧ (∀ ns nm tg idg : String,
        canonicalRepository ⟨"", ns, nm, tg, idg⟩
          = canonicalRepository ⟨"docker.io", ns, nm, tg, idg⟩)
    ∧ (∀ reg nm tg idg : String,
        canonicalRepository ⟨reg, "", nm, tg, idg⟩
          = canonicalRepository ⟨reg, "library", nm, tg, idg⟩)
    ∧ (∀ reg ns nm tg idg : String, reg ≠ "" → ns ≠ "" →
        canonicalRepository ⟨reg, ns, nm, tg, idg⟩
          = canonicalHostname reg ++ "/" ++ ns ++ "/" ++ nm)
    ∧ (∀ ns nm tg idg : String,
        canonicalRepository ⟨"index.docker.io", ns, nm, tg, idg⟩
          = canonicalRepository ⟨"docker.io", ns, nm, tg, idg⟩
        ∧ canonicalRepository ⟨"registry-1.docker.io", ns, nm, tg, idg⟩
          = canonicalRepository ⟨"docker.io", ns, nm, tg, idg⟩)
    ∧ parseDockerImageReference "busybox:glibc" = .ok ⟨"", "", "busybox", "glibc", ""⟩
    ∧ canonicalRepository ⟨"", "", "busybox", "glibc", ""⟩ = "docker.io/library/busybox"
    ∧ (RegistryWhitelister.mk [⟨"docker.io", "443", false⟩] []).AdmitHostname
        "index.docker.io" .secure = none
    ∧ (RegistryWhitelister.mk [⟨"docker.io", "443", false⟩] []).AdmitDockerImageReference
        ⟨"index.docker.io", "library", "busybox", "", ""⟩ .secure = none
    ∧ NewRegistryWhitelister [("docker.io", false)]
        = .ok (RegistryWhitelister.mk [⟨"docker.io", "443", false⟩] []) := by
  refine ⟨fun ref tg idg => rfl, fun ns nm tg idg => rfl, fun reg nm tg idg => rfl,
    ?_, fun ns nm tg idg => ⟨rfl, rfl⟩, by rfl, by rfl, by rfl, by rfl, by rfl⟩
  intro reg ns nm tg idg hreg hns
  unfold canonicalRepository DockerImageReference.DockerClientDefaults
  simp only [if_neg hreg, if_neg hns]

/-- C8 witness: the general canonical-repository shape applied at the
concrete private-registry reference of the repository's test. -/
theorem C8_witness :
    canonicalRepository
        ⟨"image-registry.openshift-image-registry.svc:5000", "openshift", "httpd",
          "", "sha256:e3b0c44298fc1c149afbf4c8996fb92427ae41e4649b934ca495991b7852b855"⟩
      = canonicalHostname "image-registry.openshift-image-registry.svc:5000"
        ++ "/" ++ "openshift" ++ "/" ++ "httpd" :=
  C8_canonicalRepository.2.2.2.1
    "image-registry.openshift-image-registry.svc:5000" "openshift" "httpd" ""
    "sha256:e3b0c44298fc1c149afbf4c8996fb92427ae41e4649b934ca495991b7852b855"
    (by decide) (by decide)

/-- C1 counterexample: with the single entry registry.com:80 (insecure =
false), AdmitHostname("registry.com", Secure) DENIES — the port-free query is
checked against the secure default port 443, exactly as the repository's test
expects for its four-entry engine — refuting the claim that a matching
domain pattern alone admits a port-free query under every transport. -/
theorem C1_counterexample :
    NewRegistryWhitelister [("registry.com:80", false)]
      = .ok (RegistryWhitelister.mk [⟨"registry.com", "80", false⟩] [])
    ∧ (RegistryWhitelister.mk [⟨"registry.com", "80", false⟩] []).AdmitHostname
        "registry.com" .secure
      = some "registry \"registry.com\" not allowed by whitelist: \"registry.com:80\""
    ∧ NewRegistryWhitelister
        [("localhost:5000", false), ("docker.io", false), ("example.com:*", false),
         ("registry.com:80", false)]
      = .ok (RegistryWhitelister.mk
          [⟨"localhost", "5000", false⟩, ⟨"docker.io", "443", false⟩,
           ⟨"example.com", "*", false⟩, ⟨"registry.com", "80", false⟩] [])
    ∧ (RegistryWhitelister.mk
          [⟨"localhost", "5000", false⟩, ⟨"docker.io", "443", false⟩,
           ⟨"example.com", "*", false⟩, ⟨"registry.com", "80", false⟩] []).AdmitHostname
        "registry.com" .secure
      = some ("registry \"registry.com\" not allowed by whitelist: \"localhost:5000\", "
          ++ "\"docker.io:443\", \"example.com:*\", \"registry.com:80\"") :=
  ⟨rfl, rfl, rfl, rfl⟩

/-- C1 (amended): under the `any` transport a port-free query never reads
the entries' ports (admission is invariant under arbitrary rewriting of every
stored port), but under `secure` (resp. `insecure`) a port-free query is
checked against the default port 443 (resp. 80); with the single entry
registry.com:80 (insecure = false), AdmitHostname("registry.com", t) admits
for t = Any only and denies for Secure and Insecure, while
AdmitHostname("registry.com:443", t) denies for every t. -/
theorem C1_amended :
    (∀ (rw : RegistryWhitelister) (f : String → String) (q : String), ':' ∉ q.data →
        ((RegistryWhitelister.mk (setEntryPorts f rw.whitelist) rw.pullSpecs).AdmitHostname
            q .any).isNone
          = (rw.AdmitHostname q .any).isNone)
    ∧ (∀ (rw : RegistryWhitelister) (q : String), ':' ∉ q.data →
        rw.AdmitHostname q .secure = admitHostPort rw q q (some "443") .secure)
    ∧ (∀ (rw : RegistryWhitelister) (q : String), ':' ∉ q.data →
        rw.AdmitHostname q .insecure = admitHostPort rw q q (some "80") .insecure)
    ∧ (RegistryWhitelister.mk [⟨"registry.com", "80", false⟩] []).AdmitHostname
        "registry.com" .any = none
    ∧ (RegistryWhitelister.mk [⟨"registry.com", "80", false⟩] []).AdmitHostname
        "registry.com" .secure ≠ none
    ∧ (RegistryWhitelister.mk [⟨"registry.com", "80", false⟩] []).AdmitHostname
        "registry.com" .insecure ≠ none
    ∧ (RegistryWhitelister.mk [⟨"registry.com", "80", false⟩] []).AdmitHostname
        "registry.com:443" .any ≠ none
    ∧ (RegistryWhitelister.mk [⟨"registry.com", "80", false⟩] []).AdmitHostname
        "registry.com:443" .secure ≠ none
    ∧ (RegistryWhitelister.mk [⟨"registry.com", "80", false⟩] []).AdmitHostname
        "registry.com:443" .insecure ≠ none := by
  refine ⟨?_, ?_, ?_, by rfl, by decide, by decide, by decide, by decide, by decide⟩
  · intro rw f q hc
    unfold RegistryWhitelister.AdmitHostname
    rw [splitOnSep_eq_single hc]
    show (admitHostPort (RegistryWhitelister.mk (setEntryPorts f rw.whitelist) rw.pullSpecs)
        q (String.mk q.data) none .any).isNone
      = (admitHostPort rw q (String.mk q.data) none .any).isNone
    rw [isNone_admitHostPort, isNone_admitHostPort]
    exact any_entryMatches_setPorts f rw.whitelist .any (canonicalHostname (String.mk q.data))
  · intro rw q hc
    unfold RegistryWhitelister.AdmitHostname
    rw [splitOnSep_eq_single hc]
    show admitHostPort rw q (String.mk q.data) none .secure
      = admitHostPort rw q q (some "443") .secure
    rfl
  · intro rw q hc
    unfold RegistryWhitelister.AdmitHostname
    rw [splitOnSep_eq_single hc]
    show admitHostPort rw q (String.mk q.data) none .insecure
      = admitHostPort rw q q (some "80") .insecure
    rfl

/-- C1 witness: the port-invariance clause applied at a concrete engine and
port-rewriting function, and the secure default-port clause at a concrete
engine. -/
theorem C1_witness :
    ((RegistryWhitelister.mk (setEntryPorts (fun _ => "9999") [⟨"a", "80", false⟩])
        []).AdmitHostname "a" .any).isNone
      = ((RegistryWhitelister.mk [⟨"a", "80", false⟩] []).AdmitHostname "a" .any).isNone
    ∧ (RegistryWhitelister.mk [⟨"b", "80", true⟩] []).AdmitHostname "b" .secure
      = admitHostPort (RegistryWhitelister.mk [⟨"b", "80", true⟩] []) "b" "b"
          (some "443") .secure :=
  ⟨C1_amended.1 (RegistryWhitelister.mk [⟨"a", "80", false⟩] []) (fun _ => "9999") "a"
      (by decide),
   C1_amended.2.1 (RegistryWhitelister.mk [⟨"b", "80", true⟩] []) "b" (by decide)⟩

/-- C2 counterexample: starting from the empty engine,
WhitelistRegistry("foo.com", Insecure) followed by
WhitelistRegistry("foo.com", Any) yields a denial message that lists the
later-added foo.com:443 entry BEFORE the earlier-inserted foo.com:80 entry
(exactly as the repository's TestWhitelistRegistry expects), refuting the
claimed append order. -/
theorem C2_counterexample :
    emptyWhitelister.WhitelistRegistry "foo.com" .insecure
      = .ok (RegistryWhitelister.mk [⟨"foo.com", "80", true⟩] [])
    ∧ (RegistryWhitelister.mk [⟨"foo.com", "80", true⟩] []).WhitelistRegistry "foo.com" .any
      = .ok (RegistryWhitelister.mk
          [⟨"foo.com", "443", false⟩, ⟨"foo.com", "80", true⟩] [])
    ∧ (RegistryWhitelister.mk
          [⟨"foo.com", "443", false⟩, ⟨"foo.com", "80", true⟩] []).AdmitHostname
        "sub.foo.com" .any
      = some "registry \"sub.foo.com\" not allowed by whitelist: \"foo.com:443\", \"foo.com:80\""
    ∧ (RegistryWhitelister.mk
          [⟨"foo.com", "443", false⟩, ⟨"foo.com", "80", true⟩] []).AdmitHostname
        "sub.foo.com" .any
      ≠ some "registry \"sub.foo.com\" not allowed by whitelist: \"foo.com:80\", \"foo.com:443\"" :=
  ⟨rfl, rfl, rfl, by decide⟩

/-- C2 (amended): every WhitelistRegistry mutation PREPENDS the new entries
(the previous entry list survives verbatim as a suffix and pinned
repositories are untouched), denial messages enumerate the applicable
entries in stored order, and after Insecure-then-Any on foo.com the denial
message lists the later-added foo.com:443 entry before foo.com:80. -/
theorem C2_amended :
    (∀ (rw r : RegistryWhitelister) (d : String) (t : WhitelistTransport),
        rw.WhitelistRegistry d t = .ok r →
        ∃ pre : List AllowedHostPortGlob,
          r.whitelist = pre ++ rw.whitelist ∧ r.pullSpecs = rw.pullSpecs)
    ∧ (∀ (rw : RegistryWhitelister) (q : String) (t : WhitelistTransport), ':' ∉ q.data →
        rw.AdmitHostname q t = none
        ∨ rw.AdmitHostname q t
            = some (denialMessage q (applicableEntries rw.whitelist t)))
    ∧ emptyWhitelister.WhitelistRegistry "foo.com" .insecure
        = .ok (RegistryWhitelister.mk [⟨"foo.com", "80", true⟩] [])
    ∧ (RegistryWhitelister.mk [⟨"foo.com", "80", true⟩] []).WhitelistRegistry "foo.com" .any
        = .ok (RegistryWhitelister.mk
            [⟨"foo.com", "443", false⟩, ⟨"foo.com", "80", true⟩] [])
    ∧ (RegistryWhitelister.mk
          [⟨"foo.com", "443", false⟩, ⟨"foo.com", "80", true⟩] []).AdmitHostname
        "sub.foo.com" .any
      = some "registry \"sub.foo.com\" not allowed by whitelist: \"foo.com:443\", \"foo.com:80\"" := by
  refine ⟨?_, ?_, by rfl, by rfl, by rfl⟩
  · intro rw r d t h
    obtain ⟨es, h1, h2⟩ := WhitelistRegistry_structure h
    obtain ⟨p, hp⟩ := foldl_insertEntry_prefix es rw.whitelist
    exact ⟨p, by rw [h1, hp], h2⟩
  · intro rw q t hc
    unfold RegistryWhitelister.AdmitHostname
    rw [splitOnSep_eq_single hc]
    show admitHostPort rw q (String.mk q.data) none t = none
      ∨ admitHostPort rw q (String.mk q.data) none t
          = some (denialMessage q (applicableEntries rw.whitelist t))
    cases hany : (applicableEntries rw.whitelist t).any
        (fun e => entryMatches e (canonicalHostname (String.mk q.data)) (queryPort t none)) with
    | true => exact Or.inl (admitHostPort_eq_none_of_any hany)
    | false => exact Or.inr (admitHostPort_eq_some_of_not_any hany)

/-- C2 witness: the prepend-structure clause applied at the concrete
Insecure-then-Any engine of the repository's test, and the denial-shape
clause at its final engine. -/
theorem C2_witness :
    (∃ pre : List AllowedHostPortGlob,
        (RegistryWhitelister.mk
            [⟨"foo.com", "443", false⟩, ⟨"foo.com", "80", true⟩] []).whitelist
          = pre ++ (RegistryWhitelister.mk [⟨"foo.com", "80", true⟩] []).whitelist
        ∧ (RegistryWhitelister.mk
            [⟨"foo.com", "443", false⟩, ⟨"foo.com", "80", true⟩] []).pullSpecs
          = (RegistryWhitelister.mk [⟨"foo.com", "80", true⟩] []).pullSpecs)
    ∧ ((RegistryWhitelister.mk
          [⟨"foo.com", "443", false⟩, ⟨"foo.com", "80", true⟩] []).AdmitHostname
        "sub.foo.com" .any = none
      ∨ (RegistryWhitelister.mk
          [⟨"foo.com", "443", false⟩, ⟨"foo.com", "80", true⟩] []).AdmitHostname
        "sub.foo.com" .any
        = some (denialMessage "sub.foo.com"
            (applicableEntries (RegistryWhitelister.mk
              [⟨"foo.com", "443", false⟩, ⟨"foo.com", "80", true⟩] []).whitelist .any))) :=
  ⟨C2_amended.1 (RegistryWhitelister.mk [⟨"foo.com", "80", true⟩] [])
      (RegistryWhitelister.mk [⟨"foo.com", "443", false⟩, ⟨"foo.com", "80", true⟩] [])
      "foo.com" .any (by rfl),
   C2_amended.2.1 (RegistryWhitelister.mk
      [⟨"foo.com", "443", false⟩, ⟨"foo.com", "80", true⟩] []) "sub.foo.com" .any (by decide)⟩

/-- C4 counterexample: from the empty engine, one WhitelistRegistry(d, Any)
call stores the entries as [d:443, d:80], while Secure-then-Insecure stores
them as [d:80, d:443]; the two engines return DIFFERENT AdmitHostname
results (denial messages enumerating the entries in opposite orders) for
the non-matching host sub.foo.com, refuting "every Admit* result is
identical". -/
theorem C4_counterexample :
    emptyWhitelister.WhitelistRegistry "foo.com" .any
      = .ok (RegistryWhitelister.mk
          [⟨"foo.com", "443", false⟩, ⟨"foo.com", "80", true⟩] [])
    ∧ emptyWhitelister.WhitelistRegistry "foo.com" .secure
      = .ok (RegistryWhitelister.mk [⟨"foo.com", "443", false⟩] [])
    ∧ (RegistryWhitelister.mk [⟨"foo.com", "443", false⟩] []).WhitelistRegistry
        "foo.com" .insecure
      = .ok (RegistryWhitelister.mk
          [⟨"foo.com", "80", true⟩, ⟨"foo.com", "443", false⟩] [])
    ∧ (RegistryWhitelister.mk
          [⟨"foo.com", "443", false⟩, ⟨"foo.com", "80", true⟩] []).AdmitHostname
        "sub.foo.com" .any
      = some "registry \"sub.foo.com\" not allowed by whitelist: \"foo.com:443\", \"foo.com:80\""
    ∧ (RegistryWhitelister.mk
          [⟨"foo.com", "80", true⟩, ⟨"foo.com", "443", false⟩] []).AdmitHostname
        "sub.foo.com" .any
      = some "registry \"sub.foo.com\" not allowed by whitelist: \"foo.com:80\", \"foo.com:443\""
    ∧ (RegistryWhitelister.mk
          [⟨"foo.com", "443", false⟩, ⟨"foo.com", "80", true⟩] []).AdmitHostname
        "sub.foo.com" .any
      ≠ (RegistryWhitelister.mk
          [⟨"foo.com", "80", true⟩, ⟨"foo.com", "443", false⟩] []).AdmitHostname
        "sub.foo.com" .any :=
  ⟨rfl, rfl, rfl, rfl, rfl, by decide⟩

/-- C4 (amended): for every port-free host d, after WhitelistRegistry(d, Any)
both AdmitHostname(d, Secure) and AdmitHostname(d, Insecure) (and Any)
admit; the admission DECISIONS of every Admit* call agree between the
once-Any engine and the Secure-then-Insecure engine (their entry sets are
equal, though denial messages may enumerate the two entries in opposite
order); repeating any WhitelistRegistry call is idempotent, including with a
different transport whose entries are already present. -/
theorem C4_amended :
    (∀ (rw r : RegistryWhitelister) (d : String), ':' ∉ d.data →
        rw.WhitelistRegistry d .any = .ok r →
        r.AdmitHostname d .secure = none
        ∧ r.AdmitHostname d .insecure = none
        ∧ r.AdmitHostname d .any = none)
    ∧ (∀ (rw r1 r2 r12 : RegistryWhitelister) (d : String), ':' ∉ d.data →
        rw.WhitelistRegistry d .any = .ok r1 →
        rw.WhitelistRegistry d .secure = .ok r2 →
        r2.WhitelistRegistry d .insecure = .ok r12 →
        ∀ (q : String) (t : WhitelistTransport) (ref : DockerImageReference)
          (psq : String),
          (r1.AdmitHostname q t).isNone = (r12.AdmitHostname q t).isNone
          ∧ (r1.AdmitDockerImageReference ref t).isNone
              = (r12.AdmitDockerImageReference ref t).isNone
          ∧ (r1.AdmitPullSpec psq t).isNone = (r12.AdmitPullSpec psq t).isNone)
    ∧ (∀ (rw r : RegistryWhitelister) (d : String) (t : WhitelistTransport),
        rw.WhitelistRegistry d t = .ok r → r.WhitelistRegistry d t = .ok r)
    ∧ (∀ (rw r : RegistryWhitelister) (d : String), ':' ∉ d.data →
        rw.WhitelistRegistry d .any = .ok r →
        r.WhitelistRegistry d .secure = .ok r
        ∧ r.WhitelistRegistry d .insecure = .ok r
        ∧ r.WhitelistRegistry d .any = .ok r) := by
  refine ⟨?_, ?_, fun rw r d t h => WhitelistRegistry_idem h, ?_⟩
  · intro rw r d hc h
    rw [WhitelistRegistry_ok_of_no_colon rw d .any hc] at h
    injection h with h2
    subst h2
    have h443 : (⟨d, "443", false⟩ : AllowedHostPortGlob)
        ∈ (defaultEntries d .any).foldl insertEntry rw.whitelist :=
      mem_foldl_insertEntry.mpr (Or.inl (by simp [defaultEntries]))
    have h80 : (⟨d, "80", true⟩ : AllowedHostPortGlob)
        ∈ (defaultEntries d .any).foldl insertEntry rw.whitelist :=
      mem_foldl_insertEntry.mpr (Or.inl (by simp [defaultEntries]))
    refine ⟨?_, ?_, ?_⟩
    · refine AdmitHostname_none_of_entry hc (e := ⟨d, "443", false⟩) ?_ ?_
      · exact List.mem_filter.mpr ⟨h443, by rfl⟩
      · show (matchDomain d (canonicalHostname d)
          && matchPort "443" (queryPort .secure none)) = true
        rw [matchDomain_canonical_self]
        rfl
    · refine AdmitHostname_none_of_entry hc (e := ⟨d, "80", true⟩) ?_ ?_
      · exact List.mem_filter.mpr ⟨h80, by rfl⟩
      · show (matchDomain d (canonicalHostname d)
          && matchPort "80" (queryPort .insecure none)) = true
        rw [matchDomain_canonical_self]
        rfl
    · refine AdmitHostname_none_of_entry hc (e := ⟨d, "443", false⟩) h443 ?_
      show (matchDomain d (canonicalHostname d)
        && matchPort "443" (queryPort .any none)) = true
      rw [matchDomain_canonical_self]
      rfl
  · intro rw r1 r2 r12 d hc h1 h2 h12 q t ref psq
    rw [WhitelistRegistry_ok_of_no_colon rw d .any hc] at h1
    injection h1 with e1
    subst e1
    rw [WhitelistRegistry_ok_of_no_colon rw d .secure hc] at h2
    injection h2 with e2
    subst e2
    rw [WhitelistRegistry_ok_of_no_colon _ d .insecure hc] at h12
    injection h12 with e12
    subst e12
    have hiff : ∀ x, x ∈ (defaultEntries d .any).foldl insertEntry rw.whitelist
        ↔ x ∈ (defaultEntries d .insecure).foldl insertEntry
            ((defaultEntries d .secure).foldl insertEntry rw.whitelist) := by
      intro x
      rw [mem_foldl_insertEntry, mem_foldl_insertEntry, mem_foldl_insertEntry]
      simp only [defaultEntries, List.mem_cons, List.mem_singleton, List.not_mem_nil,
        or_false]
      tauto
    exact ⟨isNone_AdmitHostname_congr hiff rw.pullSpecs rw.pullSpecs q t,
      isNone_AdmitDockerImageReference_congr hiff rw.pullSpecs ref t,
      isNone_AdmitPullSpec_congr hiff rw.pullSpecs psq t⟩
  · intro rw r d hc h
    rw [WhitelistRegistry_ok_of_no_colon rw d .any hc] at h
    injection h with h2
    subst h2
    have h443 : (⟨d, "443", false⟩ : AllowedHostPortGlob)
        ∈ (defaultEntries d .any).foldl insertEntry rw.whitelist :=
      mem_foldl_insertEntry.mpr (Or.inl (by simp [defaultEntries]))
    have h80 : (⟨d, "80", true⟩ : AllowedHostPortGlob)
        ∈ (defaultEntries d .any).foldl insertEntry rw.whitelist :=
      mem_foldl_insertEntry.mpr (Or.inl (by simp [defaultEntries]))
    refine ⟨WhitelistRegistry_noop (parseWhitelistEntries_of_no_colon hc .secure) ?_,
      WhitelistRegistry_noop (parseWhitelistEntries_of_no_colon hc .insecure) ?_,
      WhitelistRegistry_noop (parseWhitelistEntries_of_no_colon hc .any) ?_⟩
    · intro e he
      simp only [defaultEntries, List.mem_singleton] at he
      subst he
      exact h443
    · intro e he
      simp only [defaultEntries, List.mem_singleton] at he
      subst he
      exact h80
    · intro e he
      simp only [defaultEntries, List.mem_cons, List.mem_singleton,
        List.not_mem_nil, or_false] at he
      rcases he with rfl | rfl
      · exact h80
      · exact h443

/-- C4 witness: the amended clauses applied at the concrete engine obtained
by WhitelistRegistry("foo.com", Any) on the empty whitelister. -/
theorem C4_witness :
    (RegistryWhitelister.mk
        [⟨"foo.com", "443", false⟩, ⟨"foo.com", "80", true⟩] []).AdmitHostname
      "foo.com" .secure = none
    ∧ (RegistryWhitelister.mk
        [⟨"foo.com", "443", false⟩, ⟨"foo.com", "80", true⟩] []).AdmitHostname
      "foo.com" .insecure = none
    ∧ (RegistryWhitelister.mk
        [⟨"foo.com", "443", false⟩, ⟨"foo.com", "80", true⟩] []).WhitelistRegistry
      "foo.com" .secure
      = .ok (RegistryWhitelister.mk
          [⟨"foo.com", "443", false⟩, ⟨"foo.com", "80", true⟩] []) := by
  have ha := C4_amended.1 emptyWhitelister
    (RegistryWhitelister.mk [⟨"foo.com", "443", false⟩, ⟨"foo.com", "80", true⟩] [])
    "foo.com" (by decide) (by rfl)
  have hd := C4_amended.2.2.2 emptyWhitelister
    (RegistryWhitelister.mk [⟨"foo.com", "443", false⟩, ⟨"foo.com", "80", true⟩] [])
    "foo.com" (by decide) (by rfl)
  exact ⟨ha.1, ha.2.1, hd.1⟩
